import Mathlib

/-!
Verification of the view-navigation engine of patto-mobile.

The definitions below are a shallow embedding of the JavaScript sources:
  - src/lib/constants.js   (the View and SortBy enumerations)
  - src/lib/store.js       (the Zustand store: state fields and actions)
  - src/lib/viewHooks.js   (the hook registry dispatch functions)
  - src/lib/noteHooks.js   (the hooks registered for NOTE_VIEW and NOTE_EDIT)

Modelling conventions:
  - The store state is the structure NavState; zustand's set(partial) merges
    a partial object into the state, which we render as explicit field
    updates (the Updates structure plus applyUpdates).
  - JavaScript strings that may be null are Option String; the JS truthiness
    test (null, undefined and the empty string are falsy) is truthyOpt.
  - History-entry context fields may be absent; an absent field and a null
    field are observationally identical in this code (both falsy, both
    defaulted by the || operator), so both are rendered as none.
  - External async operations (tauri invoke calls) are parameters:
    openNote takes the outcome of the render_note invocation, and goBack /
    saveNote take the combined outcome of write_note followed by
    render_content (their only observable effect on state is the rendered
    html written on success; any failure is caught and leaves state alone).
  - Calls of the store action saveNote are recorded in an event trace, so
    that persist-count properties can be stated.
  - history.pushState / history.replaceState only talk to the platform
    history and touch no store state; they are not modelled.
-/

namespace Patto

/-- The View enumeration from src/lib/constants.js. -/
inductive View where
  | FILE_LIST
  | NOTE_VIEW
  | NOTE_EDIT
  | TASKS
  | GIT_CONFIG
deriving DecidableEq

/-- The SortBy enumeration from src/lib/constants.js. -/
inductive SortBy where
  | LAST_MODIFIED
  | LAST_CREATED
  | MOST_LINKED
  | ALPHABETICAL
deriving DecidableEq

/-- Failure taxonomy of the external collaborator operations (spec section 7);
the navigation core only ever propagates these opaquely. -/
inductive Err where
  | notFound
  | ioError
  | validationError
deriving DecidableEq

/-- Result of the render_note invocation: rawContent and html fields. -/
structure Rendered where
  rawContent : String
  html : String
deriving DecidableEq

/-- JS truthiness of a nullable string: null/undefined and "" are falsy. -/
def truthyOpt : Option String → Bool
  | some x => x ≠ ""
  | none => false

/-- One entry of the viewHistory stack (store.js line 27 comment:
objects with view and optional saved note context). An absent context
field and a null one are both rendered as none (observationally equal
in this code). -/
structure HistoryEntry where
  view : View
  note : Option String := none
  content : Option String := none
  html : Option String := none
deriving DecidableEq

/-- A bare history entry carrying no saved context, as pushed by
navigateTo, toggleEdit and openNote. -/
def HistoryEntry.bare (v : View) : HistoryEntry := { view := v }

/-- The context produced by the NOTE_VIEW saveContext hook
(noteHooks.js): note, content and html captured from state. -/
structure Ctx where
  note : Option String
  content : String
  html : String
deriving DecidableEq

/-- Trace events: an invocation of the store action saveNote, recording the
noteContent the invocation reads from state. -/
inductive Event where
  | saveNoteInvoked (content : String)
deriving DecidableEq

/-- A partial state object as returned by onLeave / onEnter hooks; the
registered hooks only ever mention these four fields. A field that is
some v is present in the partial object; applying it overwrites the
state field. -/
structure Updates where
  currentNote : Option (Option String) := none
  noteContent : Option String := none
  renderedHtml : Option String := none
  isEditing : Option Bool := none
deriving DecidableEq

/-- The store state (src/lib/store.js lines 20-47). Fields the navigation
core never touches are included so that frame properties can be stated;
their payload types are opaque stand-ins (a file summary or task group is
just a string here). -/
structure NavState where
  workspacePath : Option String
  currentView : View
  viewHistory : List HistoryEntry
  files : List String
  sortBy : SortBy
  isLoadingFiles : Bool
  currentNote : Option String
  noteContent : String
  renderedHtml : String
  isEditing : Bool
  tasks : Option String
  isLoadingTasks : Bool
  gitStatus : Option String
  gitUsername : String
  gitToken : String
  isGitSyncing : Bool
deriving DecidableEq

/-- The state the store is created with (store.js lines 20-47). -/
def initialState : NavState where
  workspacePath := none
  currentView := View.FILE_LIST
  viewHistory := [HistoryEntry.bare View.FILE_LIST]
  files := []
  sortBy := SortBy.LAST_MODIFIED
  isLoadingFiles := false
  currentNote := none
  noteContent := ""
  renderedHtml := ""
  isEditing := false
  tasks := none
  isLoadingTasks := false
  gitStatus := none
  gitUsername := ""
  gitToken := ""
  isGitSyncing := false

/-- zustand's set with a partial object: merge the present fields of the
partial object into the state. -/
def applyUpdates (s : NavState) (u : Updates) : NavState :=
  { s with
    currentNote := u.currentNote.getD s.currentNote
    noteContent := u.noteContent.getD s.noteContent
    renderedHtml := u.renderedHtml.getD s.renderedHtml
    isEditing := u.isEditing.getD s.isEditing }

/-- Object spread of two partial objects, the second one written later and
therefore winning on common fields, as in set with a spread of
leaveUpdates then enterUpdates (store.js lines 94-99). -/
def mergeUpdates (a b : Updates) : Updates where
  currentNote := b.currentNote <|> a.currentNote
  noteContent := b.noteContent <|> a.noteContent
  renderedHtml := b.renderedHtml <|> a.renderedHtml
  isEditing := b.isEditing <|> a.isEditing

/-- callSaveContext of viewHooks.js, with the registry as populated by
noteHooks.js: only NOTE_VIEW registers a saveContext hook; it captures
currentNote, noteContent and renderedHtml. All other views yield null. -/
def callSaveContext (view : View) (s : NavState) : Option Ctx :=
  match view with
  | View.NOTE_VIEW => some { note := s.currentNote, content := s.noteContent, html := s.renderedHtml }
  | _ => none

/-- The store action saveNote (store.js lines 192-208), split into the
state it reads its guard and content from and the state its set lands on
(these coincide in a sequential run but differ under interleaving).
Its tauri invocations (write_note, render_content) are summarised by the
persist parameter: ok html means both succeeded and html is the re-render;
error means one of them failed, in which case the catch block swallows the
failure and no set happens. Every invocation is recorded in the trace with
the noteContent it reads. -/
def saveNoteAt (readS writeS : NavState) (persist : Except Err String) :
    NavState × List Event :=
  let events := [Event.saveNoteInvoked readS.noteContent]
  if !(truthyOpt readS.workspacePath) || !(truthyOpt readS.currentNote) then
    (writeS, events)
  else
    match persist with
    | Except.ok html => ({ writeS with renderedHtml := html }, events)
    | Except.error _ => (writeS, events)

/-- The store action saveNote in a sequential run (read and write state
coincide). -/
def saveNote (persist : Except Err String) (s : NavState) : NavState × List Event :=
  saveNoteAt s s persist

/-- callOnLeave of viewHooks.js with the registry as populated by
noteHooks.js, again split into the snapshot the hook reads and the live
state its nested set lands on. NOTE_VIEW onLeave clears the note fields;
NOTE_EDIT onLeave invokes saveNote when isEditing and then turns edit mode
off; other views have no onLeave hook and yield an empty partial object.
Returns the live state after any nested set, the partial object the hook
returns, and the event trace. -/
def callOnLeaveAt (view : View) (snapshot live : NavState) (persist : Except Err String) :
    NavState × Updates × List Event :=
  match view with
  | View.NOTE_VIEW =>
      (live,
       { currentNote := some none
         noteContent := some ""
         renderedHtml := some ""
         isEditing := some false },
       [])
  | View.NOTE_EDIT =>
      if snapshot.isEditing then
        let r := saveNoteAt snapshot live persist
        (r.1, { isEditing := some false }, r.2)
      else
        (live, { isEditing := some false }, [])
  | _ => (live, {}, [])

/-- callOnLeave in a sequential run (snapshot and live state coincide). -/
def callOnLeave (view : View) (s : NavState) (persist : Except Err String) :
    NavState × Updates × List Event :=
  callOnLeaveAt view s s persist

/-- callOnEnter of viewHooks.js with the registry as populated by
noteHooks.js: only NOTE_VIEW registers an onEnter hook; it restores the
saved note context from the history entry when that entry carries a truthy
note, and otherwise returns an empty partial object. The hook ignores its
state argument. -/
def callOnEnter (view : View) (context : HistoryEntry) (state : NavState) : Updates :=
  match view with
  | View.NOTE_VIEW =>
      if truthyOpt context.note then
        { currentNote := some context.note
          noteContent := some (context.content.getD "")
          renderedHtml := some (context.html.getD "")
          isEditing := some false }
      else {}
  | _ => {}

/-- setView (store.js line 54): the bare view setter. -/
def setView (view : View) (s : NavState) : NavState :=
  { s with currentView := view }

/-- navigateTo (store.js lines 57-68). The pushToHistory flag only feeds
history.pushState and is not modelled. -/
def navigateTo (view : View) (s : NavState) : NavState :=
  if view = s.currentView then s
  else
    { s with
      currentView := view
      viewHistory := s.viewHistory ++ [HistoryEntry.bare view] }

/-- The state argument goBack hands to callOnEnter (store.js line 91): the
snapshot taken by the get() at the top of goBack, before any update has
been applied. -/
def goBackEnterArg (persist : Except Err String) (s : NavState) : NavState := s

/-- goBack (store.js lines 71-102). Returns the new state, the boolean the
promise resolves with, and the trace of saveNote invocations made by the
onLeave hook. The none branch of the match is unreachable: the guard
ensures the popped history is still non-empty. -/
def goBack (persist : Except Err String) (s : NavState) : NavState × Bool × List Event :=
  if s.viewHistory.length ≤ 1 then
    (s, false, [])
  else
    let r := callOnLeave s.currentView s persist
    let newHistory := s.viewHistory.dropLast
    match newHistory.getLast? with
    | some previousEntry =>
        let enterUpdates := callOnEnter previousEntry.view previousEntry (goBackEnterArg persist s)
        let s2 := applyUpdates r.1 (mergeUpdates r.2.1 enterUpdates)
        ({ s2 with currentView := previousEntry.view, viewHistory := newHistory }, true, r.2.2)
    | none => (r.1, true, r.2.2)

/-- initializeHistory (store.js lines 105-108): resets viewHistory to the
single root entry. Its history.replaceState call only talks to the
platform; note that the set touches no field other than viewHistory. -/
def initializeHistory (s : NavState) : NavState :=
  { s with viewHistory := [HistoryEntry.bare View.FILE_LIST] }

/-- The entry produced by the object spread of an undefined current entry
with the saved context, as the source would produce if openNote ran with
an empty viewHistory (unreachable: the stack is created non-empty and
never emptied). The view field is undefined in JS there; this closed
enumeration represents it by NOTE_VIEW. -/
def ctxOnlyEntry (c : Ctx) : HistoryEntry :=
  { view := View.NOTE_VIEW, note := c.note, content := some c.content, html := some c.html }

/-- The object spread of the current history entry with the saved context
(store.js lines 152-155): all three context fields of the saved context
are present, so they overwrite; the view field is kept. -/
def mergeEntryCtx (e : HistoryEntry) (c : Ctx) : HistoryEntry :=
  { e with note := c.note, content := some c.content, html := some c.html }

/-- openNote (store.js lines 131-173). The fetch parameter is the outcome
of the render_note invocation. The second component is the outcome the
awaiting caller observes: the catch block swallows any failure after
logging it, so the promise always resolves normally. -/
def openNote (fetch : Except Err Rendered) (filePath : String) (s : NavState) :
    NavState × Except Err Unit :=
  if !(truthyOpt s.workspacePath) then
    (s, Except.ok ())
  else
    match fetch with
    | Except.error _ => (s, Except.ok ())
    | Except.ok result =>
        let savedContext := callSaveContext s.currentView s
        let newHistory :=
          match savedContext with
          | some ctx =>
              match s.viewHistory.getLast? with
              | some currentEntry =>
                  s.viewHistory.dropLast ++
                    [mergeEntryCtx currentEntry ctx, HistoryEntry.bare View.NOTE_VIEW]
              | none => [ctxOnlyEntry ctx, HistoryEntry.bare View.NOTE_VIEW]
          | none => s.viewHistory ++ [HistoryEntry.bare View.NOTE_VIEW]
        ({ s with
           currentNote := some filePath
           noteContent := result.rawContent
           renderedHtml := result.html
           currentView := View.NOTE_VIEW
           viewHistory := newHistory
           isEditing := false }, Except.ok ())

/-- toggleEdit (store.js lines 176-186). -/
def toggleEdit (s : NavState) : NavState :=
  let newView := if s.isEditing then View.NOTE_VIEW else View.NOTE_EDIT
  { s with
    isEditing := !s.isEditing
    currentView := newView
    viewHistory := s.viewHistory ++ [HistoryEntry.bare newView] }

/-- closeNote (store.js lines 211-221). -/
def closeNote (s : NavState) : NavState :=
  { s with
    currentNote := none
    noteContent := ""
    renderedHtml := ""
    isEditing := false
    currentView := View.FILE_LIST
    viewHistory := [HistoryEntry.bare View.FILE_LIST] }

/-- Modelled from the spec (section 4.3, goBack steps a-f): the strictly
ordered reference semantics in which the onLeave updates are applied to
the state first, the pop happens next, the onEnter hook is then invoked on
the already-updated state, and its updates are applied last. Written from
the spec words, to be compared with goBack as translated from the
source. -/
def goBackStrict (persist : Except Err String) (s : NavState) : NavState × Bool × List Event :=
  if s.viewHistory.length ≤ 1 then
    (s, false, [])
  else
    let r := callOnLeave s.currentView s persist
    let afterLeave := applyUpdates r.1 r.2.1
    let newHistory := afterLeave.viewHistory.dropLast
    match newHistory.getLast? with
    | some previousEntry =>
        let popped := { afterLeave with currentView := previousEntry.view, viewHistory := newHistory }
        let enterUpdates := callOnEnter previousEntry.view previousEntry popped
        (applyUpdates popped enterUpdates, true, r.2.2)
    | none => (afterLeave, true, r.2.2)

/-- A forward navigation: a navigateTo call, or an openNote call whose
render_note invocation returned the given result. -/
inductive Fwd where
  | nav (v : View)
  | openN (filePath : String) (r : Rendered)

/-- Apply one forward navigation. -/
def applyFwd : Fwd → NavState → NavState
  | Fwd.nav v, s => navigateTo v s
  | Fwd.openN fp r, s => (openNote (Except.ok r) fp s).1

/-- Apply a sequence of forward navigations in order. -/
def applyFwds : List Fwd → NavState → NavState
  | [], s => s
  | f :: fs, s => applyFwds fs (applyFwd f s)

/-- A forward navigation is effective on a state when it actually pushes a
history entry: navigateTo with a view other than the current one, and
openNote with a workspace set (its fetch result being ok by
construction). -/
def effFwd : Fwd → NavState → Prop
  | Fwd.nav v, s => v ≠ s.currentView
  | Fwd.openN _ _, s => truthyOpt s.workspacePath = true

/-- A sequence of forward navigations each of which is effective on the
state it runs against. -/
inductive EffSeq : List Fwd → NavState → Prop where
  | nil (s : NavState) : EffSeq [] s
  | cons {f : Fwd} {fs : List Fwd} {s : NavState} :
      effFwd f s → EffSeq fs (applyFwd f s) → EffSeq (f :: fs) s

/-- Run a list of goBack calls in order, each with its own persist outcome;
the boolean is true when every call in the list reported a navigation. -/
def goBacksOk : List (Except Err String) → NavState → NavState × Bool
  | [], s => (s, true)
  | p :: ps, s =>
      let r := goBack p s
      let rest := goBacksOk ps r.1
      (rest.1, r.2.1 && rest.2)

/-- States reachable from the store's initial state by the transition
operations navigateTo, openNote (with any fetch outcome and path), goBack
(with any persist outcome), toggleEdit and closeNote. -/
inductive Reachable : NavState → Prop where
  | init : Reachable initialState
  | nav {s : NavState} (v : View) : Reachable s → Reachable (navigateTo v s)
  | openN {s : NavState} (fetch : Except Err Rendered) (fp : String) :
      Reachable s → Reachable (openNote fetch fp s).1
  | back {s : NavState} (p : Except Err String) :
      Reachable s → Reachable (goBack p s).1
  | toggle {s : NavState} : Reachable s → Reachable (toggleEdit s)
  | close {s : NavState} : Reachable s → Reachable (closeNote s)

/-- The stack invariant of spec section 3: the history is non-empty and
the view of its last entry equals the current view. -/
def lastViewInv (s : NavState) : Prop :=
  s.viewHistory ≠ [] ∧
    ∃ e, s.viewHistory.getLast? = some e ∧ e.view = s.currentView

/-- Models the JavaScript event-loop execution of two overlapping goBack
calls on the same store, in the schedule of a rapid double back-press:
call A runs to the suspension inside its onLeave (the awaited persist of
saveNote), call B then starts against the still-unchanged live state and
suspends at its own persist, A's persist resolves and A commits its set,
then B's persist resolves and B commits. As in the source, each call
captures its own get() snapshot at entry and computes its pop from that
snapshot, each onLeave reads the live state of its start and its nested
set lands on the live state of its resolution, and each final set merges
into the live state at commit time. When the guard fails (stack at root)
call A returns false synchronously and B runs alone afterwards. Returns
the final live state and the booleans A and B resolve with. -/
def interleavedDoubleBack (p1 p2 : Except Err String) (s : NavState) :
    NavState × Bool × Bool :=
  if s.viewHistory.length ≤ 1 then
    let rB := goBack p2 s
    (rB.1, false, rB.2.1)
  else
    let newHistory := s.viewHistory.dropLast
    let aLeave := callOnLeaveAt s.currentView s s p1
    let liveA :=
      match newHistory.getLast? with
      | some prev =>
          let uE := callOnEnter prev.view prev s
          let s2 := applyUpdates aLeave.1 (mergeUpdates aLeave.2.1 uE)
          { s2 with currentView := prev.view, viewHistory := newHistory }
      | none => aLeave.1
    let bLeave := callOnLeaveAt s.currentView s liveA p2
    let liveB :=
      match newHistory.getLast? with
      | some prev =>
          let uE := callOnEnter prev.view prev s
          let s3 := applyUpdates bLeave.1 (mergeUpdates bLeave.2.1 uE)
          { s3 with currentView := prev.view, viewHistory := newHistory }
      | none => bLeave.1
    (liveB, true, true)

/-- A representative state: the NOTE_VIEW screen showing note a.pn, reached
from the file list, with a workspace set. -/
def noteViewState : NavState :=
  { initialState with
    workspacePath := some "/w"
    currentView := View.NOTE_VIEW
    viewHistory := [HistoryEntry.bare View.FILE_LIST, HistoryEntry.bare View.NOTE_VIEW]
    currentNote := some "a.pn"
    noteContent := "A"
    renderedHtml := "<p>A</p>" }

/-- A representative state: edit mode on note a.pn, reached from
noteViewState by toggling edit. -/
def noteEditState : NavState :=
  { noteViewState with
    currentView := View.NOTE_EDIT
    isEditing := true
    viewHistory := noteViewState.viewHistory ++ [HistoryEntry.bare View.NOTE_EDIT] }

/-- A state whose current view is TASKS while the stack root is FILE_LIST:
the shape produced by a setView call. -/
def tasksViewState : NavState :=
  { initialState with
    currentView := View.TASKS
    viewHistory := [HistoryEntry.bare View.FILE_LIST, HistoryEntry.bare View.TASKS] }

/-! Helper lemmas. -/

lemma orElse_getD {α : Type} (a b : Option α) (d : α) :
    (a <|> b).getD d = a.getD (b.getD d) := by
  cases a <;> rfl

/-- Applying a spread of two partial objects equals applying them in
order, the later one last. -/
lemma applyUpdates_merge (s : NavState) (a b : Updates) :
    applyUpdates s (mergeUpdates a b) = applyUpdates (applyUpdates s a) b := by
  cases s
  simp [applyUpdates, mergeUpdates, orElse_getD]

lemma applyUpdates_viewHistory (s : NavState) (u : Updates) :
    (applyUpdates s u).viewHistory = s.viewHistory := rfl

lemma applyUpdates_currentView (s : NavState) (u : Updates) :
    (applyUpdates s u).currentView = s.currentView := rfl

/-- saveNoteAt only ever writes the renderedHtml field of the live
state. -/
lemma saveNoteAt_fst (readS writeS : NavState) (p : Except Err String) :
    ∃ h, (saveNoteAt readS writeS p).1 = { writeS with renderedHtml := h } := by
  unfold saveNoteAt
  split
  · exact ⟨writeS.renderedHtml, by cases writeS with | mk => rfl⟩
  · cases p with
    | ok h => exact ⟨h, rfl⟩
    | error e => exact ⟨writeS.renderedHtml, by cases writeS with | mk => rfl⟩

/-- callOnLeaveAt only ever writes the renderedHtml field of the live
state. -/
lemma callOnLeaveAt_fst (v : View) (snap live : NavState) (p : Except Err String) :
    ∃ h, (callOnLeaveAt v snap live p).1 = { live with renderedHtml := h } := by
  cases v with
  | NOTE_VIEW => exact ⟨live.renderedHtml, by cases live with | mk => rfl⟩
  | NOTE_EDIT =>
      simp only [callOnLeaveAt]
      split
      · exact saveNoteAt_fst snap live p
      · exact ⟨live.renderedHtml, by cases live with | mk => rfl⟩
  | FILE_LIST => exact ⟨live.renderedHtml, by cases live with | mk => rfl⟩
  | TASKS => exact ⟨live.renderedHtml, by cases live with | mk => rfl⟩
  | GIT_CONFIG => exact ⟨live.renderedHtml, by cases live with | mk => rfl⟩

lemma callOnLeave_fst_viewHistory (v : View) (s : NavState) (p : Except Err String) :
    (callOnLeave v s p).1.viewHistory = s.viewHistory := by
  obtain ⟨h, hh⟩ := callOnLeaveAt_fst v s s p
  rw [callOnLeave, hh]

lemma callOnLeave_fst_currentView (v : View) (s : NavState) (p : Except Err String) :
    (callOnLeave v s p).1.currentView = s.currentView := by
  obtain ⟨h, hh⟩ := callOnLeaveAt_fst v s s p
  rw [callOnLeave, hh]

/-- The registered onEnter hooks never read their state argument. -/
lemma callOnEnter_state_irrel (v : View) (e : HistoryEntry) (s1 s2 : NavState) :
    callOnEnter v e s1 = callOnEnter v e s2 := by
  cases v <;> rfl

/-- goBack at the root: guard taken, no mutation, false, empty trace. -/
lemma goBack_root (p : Except Err String) (s : NavState)
    (h : s.viewHistory.length ≤ 1) : goBack p s = (s, false, []) := by
  rw [goBack, if_pos h]

lemma exists_getLast?_dropLast {α : Type} (l : List α) (h : 1 < l.length) :
    ∃ e, l.dropLast.getLast? = some e := by
  have hne : l.dropLast ≠ [] := by
    intro hnil
    have := congrArg List.length hnil
    rw [List.length_dropLast] at this
    simp at this
    omega
  exact Option.isSome_iff_exists.mp (List.getLast?_isSome.mpr hne)

/-- goBack off the root, unfolded: leave hook, pop, enter hook, merged
commit, true, the leave trace. -/
lemma goBack_step (p : Except Err String) (s : NavState)
    (h : 1 < s.viewHistory.length)
    (e : HistoryEntry) (he : s.viewHistory.dropLast.getLast? = some e) :
    goBack p s =
      ({ applyUpdates (callOnLeave s.currentView s p).1
           (mergeUpdates (callOnLeave s.currentView s p).2.1 (callOnEnter e.view e s)) with
         currentView := e.view, viewHistory := s.viewHistory.dropLast },
       true, (callOnLeave s.currentView s p).2.2) := by
  rw [goBack, if_neg (by omega)]
  dsimp only
  rw [he]
  rfl

lemma applyUpdates_commit (x : NavState) (u : Updates) (v : View) (h : List HistoryEntry) :
    ({ applyUpdates x u with currentView := v, viewHistory := h } : NavState) =
      applyUpdates { x with currentView := v, viewHistory := h } u := rfl

/-! Claim theorems. -/

/-- C2: goBack on a one-entry stack returns false and leaves every state
field unchanged (and an empty trace); on a stack with more than one entry
it returns true. -/
theorem C2_goBack_root_fails_closed : ∀ (s : NavState) (p : Except Err String),
    (s.viewHistory.length = 1 → goBack p s = (s, false, [])) ∧
    (1 < s.viewHistory.length → (goBack p s).2.1 = true) := by
  intro s p
  constructor
  · intro h1
    exact goBack_root p s (by omega)
  · intro h1
    obtain ⟨e, he⟩ := exists_getLast?_dropLast s.viewHistory h1
    rw [goBack_step p s h1 e he]

/-- C2 witness: at the initial (root) state goBack reports false and
changes nothing; at a two-entry stack it reports true. -/
theorem C2_goBack_root_fails_closed_witness :
    goBack (Except.ok "") initialState = (initialState, false, []) ∧
    (goBack (Except.ok "") tasksViewState).2.1 = true :=
  ⟨(C2_goBack_root_fails_closed initialState (Except.ok "")).1 (by decide),
   (C2_goBack_root_fails_closed tasksViewState (Except.ok "")).2 (by decide)⟩

/-- C3 counterexample: the claim says the state the onEnter hook observes
already includes the onLeave updates. In the source (store.js line 91) the
onEnter hook receives the get() snapshot taken at the top of goBack:
leaving edit mode, that snapshot still has isEditing true although the
onLeave updates set it to false. -/
theorem C3_counterexample :
    (goBackEnterArg (Except.ok "H") noteEditState).isEditing = true ∧
    (applyUpdates (callOnLeave noteEditState.currentView noteEditState (Except.ok "H")).1
        (callOnLeave noteEditState.currentView noteEditState (Except.ok "H")).2.1).isEditing
      = false := by
  decide

/-- C3 as amended: although goBack computes the onEnter updates from the
pre-leave snapshot, no registered onEnter hook reads its state argument
and the final commit applies the leave updates and then the enter updates
(enter winning conflicts) together with the pop, so goBack is extensionally
equal to the strictly ordered reference semantics of the spec:
leave updates applied first, then the pop, then the enter hook on the
updated state, its updates applied last. -/
theorem C3_strict_order_equivalence : ∀ (p : Except Err String) (s : NavState),
    goBack p s = goBackStrict p s := by
  intro p s
  by_cases h : s.viewHistory.length ≤ 1
  · rw [goBack_root p s h, goBackStrict, if_pos h]
  · have h1 : 1 < s.viewHistory.length := by omega
    obtain ⟨e, he⟩ := exists_getLast?_dropLast s.viewHistory h1
    rw [goBack_step p s h1 e he, goBackStrict, if_neg h]
    dsimp only
    rw [applyUpdates_viewHistory, callOnLeave_fst_viewHistory, he]
    dsimp only
    rw [applyUpdates_merge, applyUpdates_commit]
    congr 1

/-- C7 counterexample: the claim says a failing fetch is surfaced to the
caller of openNote; in the source the catch block only logs it, so the
awaited call resolves normally (ok) even though render_note failed. -/
theorem C7_counterexample :
    (openNote (Except.error Err.ioError) "b.pn" noteViewState).2 = Except.ok () := by
  rfl

/-- C7 as amended: when the fetch fails, openNote leaves every state field
exactly as it was, but the failure is not surfaced to the caller: the call
resolves normally, the error being only logged. -/
theorem C7_fetch_failure_is_noop : ∀ (s : NavState) (e : Err) (filePath : String),
    openNote (Except.error e) filePath s = (s, Except.ok ()) := by
  intro s e filePath
  unfold openNote
  split
  · rfl
  · rfl

/-- C8 counterexample: initializeHistory does not set currentView; from a
state whose current view is TASKS it leaves it TASKS, which differs from
the root view FILE_LIST the claim requires. -/
theorem C8_counterexample :
    (initializeHistory tasksViewState).currentView = View.TASKS ∧
      View.TASKS ≠ View.FILE_LIST := by
  decide

/-- C8 as amended: initializeHistory resets viewHistory to the single root
entry and leaves currentView, and every other state field, unchanged. -/
theorem C8_initializeHistory_resets_stack_only : ∀ s : NavState,
    initializeHistory s = { s with viewHistory := [HistoryEntry.bare View.FILE_LIST] } :=
  fun _ => rfl

/-- C9: the code has no serialization of concurrent goBack calls. In the
double back-press schedule where a second goBack starts while the first is
suspended awaiting its NOTE_EDIT onLeave persist, both calls report
navigation but only one entry is popped in total (final stack
[FILE_LIST, NOTE_VIEW]), whereas the serialized run of the same two calls
pops two entries (final stack [FILE_LIST]). -/
theorem C9_interleaving_loses_a_pop :
    (interleavedDoubleBack (Except.ok "h1") (Except.ok "h2") noteEditState).2 = (true, true) ∧
    (interleavedDoubleBack (Except.ok "h1") (Except.ok "h2") noteEditState).1.viewHistory =
      [HistoryEntry.bare View.FILE_LIST, HistoryEntry.bare View.NOTE_VIEW] ∧
    (goBacksOk [Except.ok "h1", Except.ok "h2"] noteEditState).2 = true ∧
    (goBacksOk [Except.ok "h1", Except.ok "h2"] noteEditState).1.viewHistory =
      [HistoryEntry.bare View.FILE_LIST] := by
  decide

/-- C10: setView changes only the currentView field, and a setView call
with a view different from the last history entry's view leaves that entry
in place, out of step with the new current view. -/
theorem C10_setView_changes_only_currentView : ∀ (s : NavState) (v : View),
    setView v s = { s with currentView := v } ∧
    (∀ e, s.viewHistory.getLast? = some e → e.view ≠ v →
      (setView v s).viewHistory.getLast? = some e ∧
        e.view ≠ (setView v s).currentView) := by
  intro s v
  refine ⟨rfl, ?_⟩
  intro e he hne
  exact ⟨he, hne⟩

/-- C10 witness: setView TASKS on the note-view state rewrites only the
current view and leaves the NOTE_VIEW top entry out of step with it. -/
theorem C10_setView_changes_only_currentView_witness :
    setView View.TASKS noteViewState = { noteViewState with currentView := View.TASKS } ∧
    ((setView View.TASKS noteViewState).viewHistory.getLast? =
        some (HistoryEntry.bare View.NOTE_VIEW) ∧
      (HistoryEntry.bare View.NOTE_VIEW).view ≠ (setView View.TASKS noteViewState).currentView) :=
  ⟨(C10_setView_changes_only_currentView noteViewState View.TASKS).1,
   (C10_setView_changes_only_currentView noteViewState View.TASKS).2
     (HistoryEntry.bare View.NOTE_VIEW) (by decide) (by decide)⟩

/-! Preservation of the stack invariant by every transition operation. -/

lemma inv_navigateTo {s : NavState} (v : View) (h : lastViewInv s) :
    lastViewInv (navigateTo v s) := by
  unfold navigateTo
  split
  · exact h
  · exact ⟨by simp, HistoryEntry.bare v, List.getLast?_concat _, rfl⟩

lemma inv_openNote {s : NavState} (fetch : Except Err Rendered) (fp : String)
    (h : lastViewInv s) : lastViewInv (openNote fetch fp s).1 := by
  unfold openNote
  split
  · exact h
  · split
    · exact h
    · refine ⟨?_, HistoryEntry.bare View.NOTE_VIEW, ?_, rfl⟩ <;>
        · dsimp only
          split
          · split <;> simp
          · simp

lemma inv_goBack {s : NavState} (p : Except Err String) (h : lastViewInv s) :
    lastViewInv (goBack p s).1 := by
  by_cases hl : s.viewHistory.length ≤ 1
  · rw [goBack_root p s hl]
    exact h
  · have h1 : 1 < s.viewHistory.length := by omega
    obtain ⟨e, he⟩ := exists_getLast?_dropLast s.viewHistory h1
    rw [goBack_step p s h1 e he]
    refine ⟨?_, e, he, rfl⟩
    intro hnil
    dsimp only at hnil
    rw [hnil] at he
    exact Option.noConfusion he

lemma inv_toggleEdit {s : NavState} (h : lastViewInv s) :
    lastViewInv (toggleEdit s) := by
  exact ⟨by simp [toggleEdit], HistoryEntry.bare (if s.isEditing then View.NOTE_VIEW else View.NOTE_EDIT),
    List.getLast?_concat _, rfl⟩

lemma inv_closeNote {s : NavState} (h : lastViewInv s) :
    lastViewInv (closeNote s) :=
  ⟨by simp [closeNote], HistoryEntry.bare View.FILE_LIST, rfl, rfl⟩

/-- C1: every state reachable from the initial state by the transition
operations navigateTo, openNote, goBack, toggleEdit and closeNote has a
non-empty viewHistory whose last entry's view equals currentView. -/
theorem C1_reachable_stack_invariant : ∀ s : NavState, Reachable s → lastViewInv s := by
  intro s h
  induction h with
  | init => exact ⟨by decide, HistoryEntry.bare View.FILE_LIST, rfl, rfl⟩
  | nav v _ ih => exact inv_navigateTo v ih
  | openN fetch fp _ ih => exact inv_openNote fetch fp ih
  | back p _ ih => exact inv_goBack p ih
  | toggle _ ih => exact inv_toggleEdit ih
  | close _ ih => exact inv_closeNote ih

/-- C1 witness: the invariant at a concrete reachable state. -/
theorem C1_reachable_stack_invariant_witness :
    lastViewInv (navigateTo View.TASKS initialState) :=
  C1_reachable_stack_invariant _ (Reachable.nav View.TASKS Reachable.init)

/-- openNote on a successful fetch from NOTE_VIEW: the saved context is
merged into the top history entry and a bare NOTE_VIEW entry is pushed. -/
lemma openNote_merge (rB : Rendered) (fpB : String) (s : NavState)
    (hw : truthyOpt s.workspacePath = true)
    (hv : s.currentView = View.NOTE_VIEW)
    (e0 : HistoryEntry) (he0 : s.viewHistory.getLast? = some e0) :
    (openNote (Except.ok rB) fpB s).1 =
      { s with
        currentNote := some fpB
        noteContent := rB.rawContent
        renderedHtml := rB.html
        currentView := View.NOTE_VIEW
        viewHistory := s.viewHistory.dropLast ++
          [mergeEntryCtx e0 { note := s.currentNote, content := s.noteContent, html := s.renderedHtml },
           HistoryEntry.bare View.NOTE_VIEW]
        isEditing := false } := by
  unfold openNote
  rw [if_neg (by simp [hw])]
  dsimp only
  rw [hv]
  dsimp only [callSaveContext]
  rw [he0]

/-- C5: from NOTE_VIEW showing note A, opening note B and then going back
restores currentNote, noteContent and renderedHtml to the values of note A
that openNote saved into the history entry, with NOTE_VIEW current
again. -/
theorem C5_goBack_restores_saved_note : ∀ (s : NavState) (p : Except Err String)
    (rB : Rendered) (fpB a : String),
    lastViewInv s → s.currentView = View.NOTE_VIEW → s.currentNote = some a → a ≠ "" →
    truthyOpt s.workspacePath = true →
    ((goBack p (openNote (Except.ok rB) fpB s).1).1.currentNote = s.currentNote ∧
     (goBack p (openNote (Except.ok rB) fpB s).1).1.noteContent = s.noteContent ∧
     (goBack p (openNote (Except.ok rB) fpB s).1).1.renderedHtml = s.renderedHtml ∧
     (goBack p (openNote (Except.ok rB) fpB s).1).1.currentView = View.NOTE_VIEW) := by
  intro s p rB fpB a hinv hv hn ha hw
  obtain ⟨hne, e0, he0, hev⟩ := hinv
  rw [openNote_merge rB fpB s hw hv e0 he0]
  have hlen : 1 < (s.viewHistory.dropLast ++
      [mergeEntryCtx e0 { note := s.currentNote, content := s.noteContent, html := s.renderedHtml },
       HistoryEntry.bare View.NOTE_VIEW]).length := by
    simp
  have hlast : (s.viewHistory.dropLast ++
      [mergeEntryCtx e0 { note := s.currentNote, content := s.noteContent, html := s.renderedHtml },
       HistoryEntry.bare View.NOTE_VIEW]).dropLast.getLast?
      = some (mergeEntryCtx e0 { note := s.currentNote, content := s.noteContent, html := s.renderedHtml }) := by
    rw [show s.viewHistory.dropLast ++
        [mergeEntryCtx e0 { note := s.currentNote, content := s.noteContent, html := s.renderedHtml },
         HistoryEntry.bare View.NOTE_VIEW]
        = (s.viewHistory.dropLast ++
           [mergeEntryCtx e0 { note := s.currentNote, content := s.noteContent, html := s.renderedHtml }]) ++
          [HistoryEntry.bare View.NOTE_VIEW] from by simp,
       List.dropLast_concat, List.getLast?_concat]
  rw [goBack_step p _ hlen _ hlast]
  have hmv : (mergeEntryCtx e0
      { note := s.currentNote, content := s.noteContent, html := s.renderedHtml }).view
      = View.NOTE_VIEW := by
    rw [mergeEntryCtx]
    exact hv ▸ hev
  simp [hmv, callOnLeave, callOnLeaveAt, callOnEnter, mergeUpdates, applyUpdates,
        mergeEntryCtx, truthyOpt, hn, ha, hev, hv]

/-- C5 witness: the concrete a.pn / b.pn run. -/
theorem C5_goBack_restores_saved_note_witness :
    ((goBack (Except.ok "x") (openNote (Except.ok ⟨"B", "<p>B</p>"⟩) "b.pn" noteViewState).1).1.currentNote
        = noteViewState.currentNote ∧
     (goBack (Except.ok "x") (openNote (Except.ok ⟨"B", "<p>B</p>"⟩) "b.pn" noteViewState).1).1.noteContent
        = noteViewState.noteContent ∧
     (goBack (Except.ok "x") (openNote (Except.ok ⟨"B", "<p>B</p>"⟩) "b.pn" noteViewState).1).1.renderedHtml
        = noteViewState.renderedHtml ∧
     (goBack (Except.ok "x") (openNote (Except.ok ⟨"B", "<p>B</p>"⟩) "b.pn" noteViewState).1).1.currentView
        = View.NOTE_VIEW) :=
  C5_goBack_restores_saved_note noteViewState (Except.ok "x") ⟨"B", "<p>B</p>"⟩ "b.pn" "a.pn"
    ⟨by decide, HistoryEntry.bare View.NOTE_VIEW, rfl, rfl⟩ rfl rfl (by decide) (by decide)

lemma saveNoteAt_snd (readS writeS : NavState) (p : Except Err String) :
    (saveNoteAt readS writeS p).2 = [Event.saveNoteInvoked readS.noteContent] := by
  unfold saveNoteAt
  split
  · rfl
  · cases p <;> rfl

lemma saveNoteAt_ok (readS writeS : NavState) (html : String)
    (hw : truthyOpt readS.workspacePath = true) (hn : truthyOpt readS.currentNote = true) :
    (saveNoteAt readS writeS (Except.ok html)).1 = { writeS with renderedHtml := html } := by
  unfold saveNoteAt
  rw [if_neg (by simp [hw, hn])]

lemma callOnLeave_NOTE_EDIT_editing (s : NavState) (p : Except Err String)
    (h : s.isEditing = true) :
    callOnLeave View.NOTE_EDIT s p =
      ((saveNoteAt s s p).1, { isEditing := some false }, (saveNoteAt s s p).2) := by
  simp only [callOnLeave, callOnLeaveAt, h, if_true]

lemma callOnLeave_NOTE_EDIT_not_editing (s : NavState) (p : Except Err String)
    (h : s.isEditing = false) :
    callOnLeave View.NOTE_EDIT s p = (s, { isEditing := some false }, []) := by
  simp only [callOnLeave, callOnLeaveAt, h]
  rfl

/-- The updates committed by goBack always turn edit mode off: the leave
updates carry isEditing false and any enter updates carry at most
isEditing false as well. -/
lemma merged_isEditing_false (v : View) (e : HistoryEntry) (s : NavState) (z : Bool) :
    ((mergeUpdates { isEditing := some false } (callOnEnter v e s)).isEditing.getD z) = false := by
  cases v <;> simp [callOnEnter, mergeUpdates]
  split <;> rfl

/-- C6: from NOTE_EDIT with edit mode on, a single goBack invokes saveNote
exactly once with the current editable content, reports navigation, turns
edit mode off, restores the previous entry's view, and (when the persist
succeeds and no saved note context overrides it) the persisted rendered
content is what the final state shows, the persist having been applied
before the commit; with edit mode off no persist call is made. -/
theorem C6_edit_back_persists_once : ∀ (s : NavState) (p : Except Err String),
    s.currentView = View.NOTE_EDIT → 1 < s.viewHistory.length →
    ((s.isEditing = true →
        (goBack p s).2.2 = [Event.saveNoteInvoked s.noteContent] ∧
        (goBack p s).2.1 = true ∧
        (goBack p s).1.isEditing = false ∧
        (∀ e, s.viewHistory.dropLast.getLast? = some e →
          (goBack p s).1.currentView = e.view ∧
          (∀ html, p = Except.ok html → truthyOpt s.workspacePath = true →
            truthyOpt s.currentNote = true →
            (e.view = View.NOTE_VIEW → truthyOpt e.note = false) →
            (goBack p s).1.renderedHtml = html))) ∧
     (s.isEditing = false → (goBack p s).2.2 = [])) := by
  intro s p hv hlen
  obtain ⟨e, he⟩ := exists_getLast?_dropLast s.viewHistory hlen
  rw [goBack_step p s hlen e he, hv]
  constructor
  · intro hed
    rw [callOnLeave_NOTE_EDIT_editing s p hed]
    refine ⟨saveNoteAt_snd s s p, rfl, ?_, ?_⟩
    · exact merged_isEditing_false e.view e s _
    · intro e2 he2
      rw [he] at he2
      cases he2
      refine ⟨rfl, ?_⟩
      intro html hp hw hn hno
      subst hp
      have hent : callOnEnter e.view e s = {} ∨
          (callOnEnter e.view e s).renderedHtml = none := by
        cases hvv : e.view <;> simp [callOnEnter]
        rw [hno hvv]
        simp
      have hrh : (mergeUpdates { isEditing := some false } (callOnEnter e.view e s)).renderedHtml
          = none := by
        rcases hent with h1 | h1
        · rw [h1]; rfl
        · simp [mergeUpdates, h1]
      dsimp only
      show ((mergeUpdates { isEditing := some false } (callOnEnter e.view e s)).renderedHtml.getD
        (saveNoteAt s s (Except.ok html)).1.renderedHtml) = html
      rw [hrh, Option.getD_none, saveNoteAt_ok s s html hw hn]
  · intro hed
    rw [callOnLeave_NOTE_EDIT_not_editing s p hed]

/-- C6 witness: the concrete run from edit mode on note a.pn with content
A, persist returning re-rendered H. -/
theorem C6_edit_back_persists_once_witness :
    (goBack (Except.ok "H") noteEditState).2.2 = [Event.saveNoteInvoked "A"] ∧
    (goBack (Except.ok "H") noteEditState).2.1 = true ∧
    (goBack (Except.ok "H") noteEditState).1.isEditing = false ∧
    (goBack (Except.ok "H") noteEditState).1.currentView = View.NOTE_VIEW ∧
    (goBack (Except.ok "H") noteEditState).1.renderedHtml = "H" := by
  have h := (C6_edit_back_persists_once noteEditState (Except.ok "H") rfl (by decide)).1 rfl
  have h2 := h.2.2.2 (HistoryEntry.bare View.NOTE_VIEW) rfl
  exact ⟨h.1, h.2.1, h.2.2.1, h2.1, h2.2 "H" rfl (by decide) (by decide) (fun _ => rfl)⟩

/-! Round-trip machinery for C4. -/

lemma inv_applyFwd {f : Fwd} {s : NavState} (h : lastViewInv s) :
    lastViewInv (applyFwd f s) := by
  cases f with
  | nav v => exact inv_navigateTo v h
  | openN fp r => exact inv_openNote (Except.ok r) fp h

lemma goBacksOk_append (qs : List (Except Err String)) (q : Except Err String)
    (s : NavState) :
    goBacksOk (qs ++ [q]) s =
      ((goBack q (goBacksOk qs s).1).1,
       (goBacksOk qs s).2 && (goBack q (goBacksOk qs s).1).2.1) := by
  induction qs generalizing s with
  | nil => simp [goBacksOk]
  | cons p qs ih =>
      simp only [List.cons_append, goBacksOk]
      rw [show (qs.append [q] : List (Except Err String)) = qs ++ [q] from rfl,
          ih (goBack p s).1, Bool.and_assoc]

/-- An effective forward navigation pushes exactly one new entry, possibly
merging saved context into the former top entry but never changing its
view. -/
lemma applyFwd_push {f : Fwd} {s : NavState} (heff : effFwd f s)
    (e0 : HistoryEntry) (he0 : s.viewHistory.getLast? = some e0) :
    ∃ m b, (applyFwd f s).viewHistory = s.viewHistory.dropLast ++ [m, b] ∧
      m.view = e0.view := by
  have hne : s.viewHistory ≠ [] := by
    intro h
    rw [h] at he0
    exact Option.noConfusion he0
  have hsplit : s.viewHistory.dropLast ++ [e0] = s.viewHistory := by
    have hg := List.getLast?_eq_getLast s.viewHistory hne
    rw [he0] at hg
    cases hg
    exact List.dropLast_append_getLast hne
  cases f with
  | nav v =>
      dsimp only [applyFwd, navigateTo]
      rw [if_neg heff]
      refine ⟨e0, HistoryEntry.bare v, ?_, rfl⟩
      dsimp only
      rw [← hsplit]
      simp
  | openN fp r =>
      have hw : truthyOpt s.workspacePath = true := heff
      dsimp only [applyFwd, openNote]
      rw [if_neg (by simp [hw])]
      dsimp only
      cases hcv : s.currentView with
      | NOTE_VIEW =>
          dsimp only [callSaveContext]
          rw [he0]
          exact ⟨mergeEntryCtx e0
            { note := s.currentNote, content := s.noteContent, html := s.renderedHtml },
            HistoryEntry.bare View.NOTE_VIEW, rfl, rfl⟩
      | FILE_LIST =>
          dsimp only [callSaveContext]
          refine ⟨e0, HistoryEntry.bare View.NOTE_VIEW, ?_, rfl⟩
          rw [← hsplit]
          simp
      | NOTE_EDIT =>
          dsimp only [callSaveContext]
          refine ⟨e0, HistoryEntry.bare View.NOTE_VIEW, ?_, rfl⟩
          rw [← hsplit]
          simp
      | TASKS =>
          dsimp only [callSaveContext]
          refine ⟨e0, HistoryEntry.bare View.NOTE_VIEW, ?_, rfl⟩
          rw [← hsplit]
          simp
      | GIT_CONFIG =>
          dsimp only [callSaveContext]
          refine ⟨e0, HistoryEntry.bare View.NOTE_VIEW, ?_, rfl⟩
          rw [← hsplit]
          simp

/-- C4 counterexample: one forward navigation call followed by one
successful goBack call does not restore the starting state: navigateTo
with the current view is a no-op (store.js line 59), so the single goBack
pops an entry no forward call pushed and the final current view differs
from the initial one. -/
theorem C4_counterexample :
    (goBacksOk [Except.ok ""] (applyFwds [Fwd.nav View.TASKS] tasksViewState)).2 = true ∧
    (goBacksOk [Except.ok ""] (applyFwds [Fwd.nav View.TASKS] tasksViewState)).1.currentView
      ≠ tasksViewState.currentView := by
  decide

/-- C4 as amended: from a state satisfying the stack invariant, any
sequence of n effective forward navigations (navigateTo with a view other
than the current one; openNote with a workspace set and a successful
fetch) followed by n goBack calls has every goBack report a navigation,
restores the initial currentView, restores the per-entry views of the
initial stack, and restores the initial stack below its top entry (the
top entry may have gained saved note context from a first-step
openNote). -/
theorem C4_lifo_round_trip : ∀ (fs : List Fwd) (s : NavState)
    (ps : List (Except Err String)),
    lastViewInv s → EffSeq fs s → ps.length = fs.length →
    (goBacksOk ps (applyFwds fs s)).2 = true ∧
    (goBacksOk ps (applyFwds fs s)).1.currentView = s.currentView ∧
    (goBacksOk ps (applyFwds fs s)).1.viewHistory.map HistoryEntry.view
        = s.viewHistory.map HistoryEntry.view ∧
    (goBacksOk ps (applyFwds fs s)).1.viewHistory.dropLast = s.viewHistory.dropLast := by
  intro fs
  induction fs with
  | nil =>
      intro s ps hinv heff hlen
      have hps : ps = [] := List.eq_nil_of_length_eq_zero (by simpa using hlen)
      subst hps
      exact ⟨rfl, rfl, rfl, rfl⟩
  | cons f fs ih =>
      intro s ps hinv heff hlen
      cases heff with
      | cons hef hseq =>
        have hps : ps ≠ [] := by
          intro h
          rw [h] at hlen
          simp at hlen
        obtain ⟨qs, q, rfl⟩ : ∃ qs q, ps = qs ++ [q] :=
          ⟨ps.dropLast, ps.getLast hps, (List.dropLast_append_getLast hps).symm⟩
        have hlen2 : qs.length = fs.length := by
          have h1 : qs.length + 1 = fs.length + 1 := by simpa using hlen
          omega
        have hinv2 : lastViewInv (applyFwd f s) := inv_applyFwd hinv
        obtain ⟨hok, hcv, hmap, hdrop⟩ := ih (applyFwd f s) qs hinv2 hseq hlen2
        obtain ⟨hne, e0, he0, hev⟩ := hinv
        obtain ⟨m, b, hpush, hmview⟩ := applyFwd_push hef e0 he0
        have hsplit : s.viewHistory.dropLast ++ [e0] = s.viewHistory := by
          have hg := List.getLast?_eq_getLast s.viewHistory hne
          rw [he0] at hg
          cases hg
          exact List.dropLast_append_getLast hne
        rw [show applyFwds (f :: fs) s = applyFwds fs (applyFwd f s) from rfl,
            goBacksOk_append]
        have hdrop2 : (goBacksOk qs (applyFwds fs (applyFwd f s))).1.viewHistory.dropLast
            = s.viewHistory.dropLast ++ [m] := by
          rw [hdrop, hpush,
              show s.viewHistory.dropLast ++ [m, b]
                = (s.viewHistory.dropLast ++ [m]) ++ [b] from by simp,
              List.dropLast_concat]
        have hlenr : 1 < (goBacksOk qs (applyFwds fs (applyFwd f s))).1.viewHistory.length := by
          have hl := congrArg List.length hmap
          simp only [List.length_map] at hl
          rw [hpush] at hl
          simp only [List.length_append, List.length_cons, List.length_nil] at hl
          omega
        have hlast2 : (goBacksOk qs (applyFwds fs (applyFwd f s))).1.viewHistory.dropLast.getLast?
            = some m := by
          rw [hdrop2, List.getLast?_concat]
        rw [goBack_step q _ hlenr m hlast2]
        have hmap2 : (s.viewHistory.dropLast ++ [m]).map HistoryEntry.view
            = s.viewHistory.map HistoryEntry.view := by
          conv_rhs => rw [← hsplit]
          rw [List.map_append, List.map_append]
          simp [hmview]
        refine ⟨by simp [hok], ?_, ?_, ?_⟩
        · dsimp only
          rw [hmview, hev]
        · dsimp only
          rw [hdrop2]
          exact hmap2
        · dsimp only
          rw [hdrop2, List.dropLast_concat]

/-- C4 witness: a concrete two-step effective forward sequence (navigateTo
TASKS, then openNote b.pn) followed by two goBack calls restores the
initial view and stack shape. -/
theorem C4_lifo_round_trip_witness :
    (goBacksOk [Except.ok "", Except.error Err.ioError]
        (applyFwds [Fwd.nav View.TASKS, Fwd.openN "b.pn" ⟨"B", "<p>B</p>"⟩] noteViewState)).2
      = true ∧
    (goBacksOk [Except.ok "", Except.error Err.ioError]
        (applyFwds [Fwd.nav View.TASKS, Fwd.openN "b.pn" ⟨"B", "<p>B</p>"⟩] noteViewState)).1.currentView
      = noteViewState.currentView ∧
    (goBacksOk [Except.ok "", Except.error Err.ioError]
        (applyFwds [Fwd.nav View.TASKS, Fwd.openN "b.pn" ⟨"B", "<p>B</p>"⟩] noteViewState)).1.viewHistory.map
          HistoryEntry.view
      = noteViewState.viewHistory.map HistoryEntry.view ∧
    (goBacksOk [Except.ok "", Except.error Err.ioError]
        (applyFwds [Fwd.nav View.TASKS, Fwd.openN "b.pn" ⟨"B", "<p>B</p>"⟩] noteViewState)).1.viewHistory.dropLast
      = noteViewState.viewHistory.dropLast :=
  C4_lifo_round_trip [Fwd.nav View.TASKS, Fwd.openN "b.pn" ⟨"B", "<p>B</p>"⟩]
    noteViewState [Except.ok "", Except.error Err.ioError]
    ⟨by decide, HistoryEntry.bare View.NOTE_VIEW, rfl, rfl⟩
    (EffSeq.cons (show View.TASKS ≠ noteViewState.currentView by decide)
      (EffSeq.cons
        (show truthyOpt (applyFwd (Fwd.nav View.TASKS) noteViewState).workspacePath = true
          by decide)
        (EffSeq.nil _)))
    rfl

end Patto
